import Mathlib

/-!
Shallow embedding of the matching and persistence core of the
smart-job-finder repository, together with proofs about the properties
its specification states.

Source files embedded:
- src/nlp/resume parsing file       (ResumeParser: skill and keyword extraction)
- src/nlp/semantic_matcher.py    (SemanticMatcher: semantic similarity)
- src/matching/job_matcher.py    (JobMatcher: score combination)
- src/database/db_manager.py     (DBManager: jobs table operations)
- config/settings.py             (weights and thresholds)

Conventions of the embedding: Python floats are modelled as rationals,
Python round-half-to-even as an explicit function on rationals; the
spaCy pipeline and the sentence-transformer model are opaque external
resources and enter as parameters (a structure of oracle functions);
Python dicts returned by functions become structures, and a dict key
that is absent on some code path becomes an Option-valued field.
Strings are treated at the level of their character lists; lowercasing
is ASCII lowercasing, which coincides with Python str.lower on the
ASCII texts involved.
-/

namespace SJF

/-- ASCII lowercasing of a string, character by character.
Models Python str.lower() on ASCII text. -/
def strLower (s : String) : String :=
  ⟨s.data.map Char.toLower⟩

/-- A regex word character for the patterns used in the source:
alphanumeric or underscore. Models the re module class backslash-w. -/
def isWordChar (c : Char) : Bool :=
  c.isAlphanum || c == '_'

/-- Whether the optional character on one side of a position is a word
character; positions outside the string count as non-word. -/
def optWord : Option Char → Bool
  | none => false
  | some c => isWordChar c

/-- A word boundary holds between two neighbouring positions when
exactly one side is a word character. -/
def boundaryAt (a b : Option Char) : Bool :=
  optWord a != optWord b

/-- The character of a list at index i, if any. -/
def charAt (t : List Char) (i : Nat) : Option Char :=
  (t.drop i).head?

/-- Whether the literal pattern p matches text t at position i with a
word boundary on both sides: the shallow embedding of searching the
regex built from boundary, escaped pattern, boundary. -/
def matchAt (p t : List Char) (i : Nat) : Bool :=
  decide ((t.drop i).take p.length = p)
  && boundaryAt (if i = 0 then none else charAt t (i - 1)) (charAt t i)
  && boundaryAt (charAt t (i + p.length - 1)) (charAt t (i + p.length))

/-- re.search of the word-boundary-delimited literal pattern in the text:
true when the pattern matches at some position. -/
def searchWB (pat text : String) : Bool :=
  (List.range (text.data.length + 1)).any (fun i => matchAt pat.data text.data i)

/-- Python str.isalpha: non-empty and every character alphabetic.
Restricted to ASCII, which covers all lexicon entries and test texts. -/
def isAlphaStr (s : String) : Bool :=
  !s.data.isEmpty && s.data.all Char.isAlpha

/-- Lexicographic comparison of character lists by code point: the order
Python uses when sorting strings. -/
def charListLe : List Char → List Char → Bool
  | [], _ => true
  | _ :: _, [] => false
  | a :: as, b :: bs => if a = b then charListLe as bs else decide (a < b)

/-- Lexicographic string comparison by code points, as Python sorted uses. -/
def strLe (a b : String) : Bool :=
  charListLe a.data b.data

/-- strLe as a decidable relation, for use with the sorting function. -/
def strLeProp : String → String → Prop :=
  fun a b => strLe a b = true

instance : DecidableRel strLeProp :=
  fun _ _ => inferInstanceAs (Decidable (_ = true))

/-- Model of sorted(list(set(xs))) from the source: deduplicate, then
sort lexicographically. -/
def sortedDedup (l : List String) : List String :=
  List.insertionSort strLeProp l.dedup

/-- The curated skill lexicon, verbatim from ResumeParser.__init__
(self.common_skills). -/
def COMMON_SKILLS : List String :=
  ["CAD", "SolidWorks", "AutoCAD", "Inventor", "Fusion 360", "CATIA",
   "ANSYS", "FEA", "CFD", "Fluent", "MATLAB", "Simulink", "Python", "R",
   "C++", "GD&T", "DFM", "Lean Manufacturing", "Six Sigma", "Prototyping",
   "3D Printing", "CNC Machining", "Robotics", "Thermodynamics", "Fluid Mechanics",
   "Heat Transfer", "Materials Science", "Finite Element Analysis", "Design",
   "Stress Analysis", "Kinematics", "Dynamics", "Mechatronics", "Control Systems",
   "Jigs & Fixtures", "Manufacturing", "Assembly", "Solid Modeling", "Mechanical Design",
   "Tolerance Analysis", "Failure Analysis", "Root Cause Analysis", "FMEA", "P&ID"]

/-- The curated general-keyword lexicon, verbatim from
ResumeParser.__init__ (self.common_keywords). -/
def COMMON_KEYWORDS : List String :=
  ["design", "analysis", "development", "engineering", "systems", "project",
   "research", "testing", "prototyping", "manufacturing", "process", "solution",
   "optimize", "innovate", "implement", "manage", "lead", "collaborate", "technical",
   "mechanical", "product", "problem-solving", "troubleshooting", "efficiency",
   "performance", "quality", "simulation", "validation", "documentation",
   "report", "technical reports", "client", "vendor", "supply chain"]

/-- The opaque spaCy pipeline: for a (lowered) document text it yields the
token texts in order, and flags stop words. Tokens and stop-word policy
are properties of the external model, so they are oracle parameters. -/
structure SpacyModel where
  tokens : String → List String
  isStop : String → Bool

/-- The state a ResumeParser holds after __init__.  The try/except in
__init__ makes construction total: on model-load failure nlp is none. -/
structure ResumeParser where
  nlp : Option SpacyModel
  common_skills : List String
  common_keywords : List String
  common_skills_lower : List String
  common_keywords_lower : List String

/-- ResumeParser.__init__: store the load result (none when spacy.load
raised), the two lexicons, and their lowercased forms. -/
def ResumeParser.init (loadResult : Option SpacyModel) : ResumeParser :=
  { nlp := loadResult
    common_skills := COMMON_SKILLS
    common_keywords := COMMON_KEYWORDS
    common_skills_lower := COMMON_SKILLS.map strLower
    common_keywords_lower := COMMON_KEYWORDS.map strLower }

/-- ResumeParser.extract_skills: lowercase the text, keep every lexicon
entry that matches at a word boundary, deduplicate and sort. -/
def extract_skills (p : ResumeParser) (text : String) : List String :=
  sortedDedup (p.common_skills_lower.filter (fun skill => searchWB skill (strLower text)))

/-- The token filter applied in extract_general_keywords:
token.is_alpha and not token.is_stop and len(token.text) > 2. -/
def tokenFilter (m : SpacyModel) (t : String) : Bool :=
  isAlphaStr t && !m.isStop t && decide (t.length > 2)

/-- ResumeParser.extract_general_keywords: if the model is not loaded
return []; otherwise tokenize the lowered text, filter tokens, and keep
every lexicon keyword that equals a token or word-boundary-matches
inside a token; deduplicate and sort. -/
def extract_general_keywords (p : ResumeParser) (text : String) : List String :=
  match p.nlp with
  | none => []
  | some m =>
    let toks := (m.tokens (strLower text)).filter (tokenFilter m)
    sortedDedup (p.common_keywords_lower.filter
      (fun kw => decide (kw ∈ toks) || toks.any (fun t => searchWB kw t)))

/-- The opaque sentence-transformer model: cosine similarity of the
embeddings of two non-empty texts, an oracle parameter. -/
structure SentenceModel where
  cos : String → String → ℚ

/-- The state a SemanticMatcher holds after __init__ (construction
re-raises on load failure, so a constructed matcher always has a model). -/
structure SemanticMatcher where
  model : SentenceModel

/-- SemanticMatcher.get_semantic_score: 0.0 when either text is empty,
otherwise the cosine similarity of the two embeddings. -/
def get_semantic_score (m : SemanticMatcher) (text1 text2 : String) : ℚ :=
  if text1 = "" ∨ text2 = "" then 0 else m.model.cos text1 text2

/-- The configuration surface of config/settings.py used by scoring. -/
structure Settings where
  SEMANTIC_THRESHOLD : ℚ
  KEYWORD_WEIGHT : ℚ
  SEMANTIC_WEIGHT : ℚ

/-- The default values assigned in config/settings.py. -/
def defaultSettings : Settings :=
  { SEMANTIC_THRESHOLD := 3 / 4, KEYWORD_WEIGHT := 1 / 2, SEMANTIC_WEIGHT := 1 / 2 }

/-- Round a rational to the nearest integer, ties to even: the rounding
Python round uses. -/
def roundHalfEven (q : ℚ) : ℤ :=
  if q - ⌊q⌋ < 1 / 2 then ⌊q⌋
  else if q - ⌊q⌋ > 1 / 2 then ⌊q⌋ + 1
  else if ⌊q⌋ % 2 = 0 then ⌊q⌋ else ⌊q⌋ + 1

/-- Python round(q, 2): round to two decimal places, ties to even. -/
def pyRound2 (q : ℚ) : ℚ :=
  (roundHalfEven (q * 100) : ℚ) / 100

/-- JobMatcher._calculate_keyword_overlap_score: 0.0 when either list is
empty, otherwise the Jaccard index of the two sets, with a redundant
guard when the union is empty. -/
def calculate_keyword_overlap_score (resume_keywords job_keywords : List String) : ℚ :=
  if resume_keywords = [] ∨ job_keywords = [] then 0
  else
    let resume_set := resume_keywords.toFinset
    let job_set := job_keywords.toFinset
    let intersection := (resume_set ∩ job_set).card
    let union := (resume_set ∪ job_set).card
    if union = 0 then 0 else (intersection : ℚ) / (union : ℚ)

/-- The Jaccard index of two finite sets, written the way the spec
defines it, for comparison with the code path above. -/
def jaccard (a b : Finset String) : ℚ :=
  ((a ∩ b).card : ℚ) / ((a ∪ b).card : ℚ)

/-- The parsed-resume dictionary consumed by match_job_to_resume, with
the defaults of the .get calls applied. -/
structure ResumeParsedData where
  text : String
  skills : List String
  keywords : List String

/-- The job dictionary consumed by match_job_to_resume, with the
defaults of the .get calls applied. -/
structure JobData where
  job_description : String
  job_title : String

/-- The dictionary match_job_to_resume returns.  The early return for
empty inputs carries no matched_keywords key, so that field is
Option-valued; the Python list built from a set intersection is
modelled as the set itself. -/
structure MatchResult where
  final_score : ℚ
  keyword_score : ℚ
  semantic_score : ℚ
  matched_keywords : Option (Finset String)
deriving DecidableEq

/-- The state a JobMatcher holds after __init__. -/
structure JobMatcher where
  resumeParser : ResumeParser
  semantic_matcher : SemanticMatcher

/-- JobMatcher.match_job_to_resume, the score combiner.  Follows the
source line by line: early return on empty text, posting skill and
keyword extraction, Jaccard keyword score, semantic score normalised
from [-1, 1] to [0, 1], weighted blend scaled to a percentage and
rounded to two decimals, and the matched-keyword intersection. -/
def match_job_to_resume (stg : Settings) (m : JobMatcher)
    (resume : ResumeParsedData) (job : JobData) : MatchResult :=
  if resume.text = "" ∨ job.job_description = "" then
    { final_score := 0, keyword_score := 0, semantic_score := 0, matched_keywords := none }
  else
    let _job_description_skills :=
      extract_skills m.resumeParser (job.job_description ++ " " ++ job.job_title)
    let job_description_keywords :=
      extract_general_keywords m.resumeParser job.job_description
    let keyword_score :=
      calculate_keyword_overlap_score resume.keywords job_description_keywords
    let semantic_score :=
      get_semantic_score m.semantic_matcher resume.text job.job_description
    let normalized_semantic_score := (semantic_score + 1) / 2
    let final_score :=
      keyword_score * stg.KEYWORD_WEIGHT + normalized_semantic_score * stg.SEMANTIC_WEIGHT
    { final_score := pyRound2 (final_score * 100)
      keyword_score := pyRound2 (keyword_score * 100)
      semantic_score := pyRound2 (normalized_semantic_score * 100)
      matched_keywords := some (resume.keywords.toFinset ∩ job_description_keywords.toFinset) }

/-- A row of the jobs table.  Nullable columns are Option-valued;
status has SQL default new and retrieved_at defaults to the insertion
timestamp. -/
structure JobRow where
  job_id : String
  job_title : Option String
  company_name : Option String
  location : Option String
  job_description : Option String
  job_url : Option String
  employer_website : Option String
  job_employment_type : Option String
  job_posted_at_datetime_utc : Option String
  status : String
  retrieved_at : String
deriving DecidableEq

/-- The job dictionary given to insert_job; every .get may be absent. -/
structure JobInput where
  job_id : Option String
  job_title : Option String
  company_name : Option String
  job_location : Option String
  job_description : Option String
  job_apply_link : Option String
  employer_website : Option String
  job_employment_type : Option String
  job_posted_at_datetime_utc : Option String
deriving DecidableEq

/-- The jobs table, as the ordered list of its rows. -/
abbrev JobsDB := List JobRow

/-- Python truthiness of an optional string: a missing key and the empty
string are both falsy. -/
def truthyId : Option String → Option String
  | none => none
  | some s => if s = "" then none else some s

/-- Whether some row of the table has the given primary key. -/
def hasId (db : JobsDB) (id : String) : Bool :=
  db.any (fun r => decide (r.job_id = id))

/-- DBManager.insert_job: reject a missing or empty job_id; otherwise
INSERT OR IGNORE keyed on job_id — a no-op returning false when the id
exists, and a fresh row with status new otherwise, returning true. -/
def insert_job (db : JobsDB) (now : String) (jd : JobInput) : Bool × JobsDB :=
  match truthyId jd.job_id with
  | none => (false, db)
  | some id =>
    if hasId db id then (false, db)
    else
      (true, db ++ [{ job_id := id
                      job_title := jd.job_title
                      company_name := jd.company_name
                      location := jd.job_location
                      job_description := jd.job_description
                      job_url := jd.job_apply_link
                      employer_website := jd.employer_website
                      job_employment_type := jd.job_employment_type
                      job_posted_at_datetime_utc := jd.job_posted_at_datetime_utc
                      status := "new"
                      retrieved_at := now }])

/-- DBManager.update_job_status: UPDATE jobs SET status WHERE job_id;
returns whether any row was updated.  The new status value is written
as given — the source performs no vocabulary check on it. -/
def update_job_status (db : JobsDB) (job_id new_status : String) : Bool × JobsDB :=
  (hasId db job_id,
   db.map (fun r => if r.job_id = job_id then { r with status := new_status } else r))

/-! ### Helper lemmas -/

lemma charListLe_total : ∀ (as bs : List Char), charListLe as bs = true ∨ charListLe bs as = true
  | [], _ => Or.inl rfl
  | _ :: _, [] => Or.inr rfl
  | a :: as, b :: bs => by
    by_cases h : a = b
    · subst h
      rcases charListLe_total as bs with h | h
      · exact Or.inl (by simpa [charListLe])
      · exact Or.inr (by simpa [charListLe])
    · rcases lt_or_gt_of_ne h with hlt | hgt
      · exact Or.inl (by simp [charListLe, h, hlt])
      · exact Or.inr (by simp [charListLe, Ne.symm h, hgt])

lemma charListLe_trans : ∀ {as bs cs : List Char},
    charListLe as bs = true → charListLe bs cs = true → charListLe as cs = true
  | [], _, _, _, _ => rfl
  | _ :: _, [], _, h1, _ => by simp [charListLe] at h1
  | _ :: _, _ :: _, [], _, h2 => by simp [charListLe] at h2
  | a :: as, b :: bs, c :: cs, h1, h2 => by
    simp only [charListLe] at h1 h2 ⊢
    by_cases hab : a = b
    · subst hab
      rw [if_pos rfl] at h1
      by_cases hac : a = c
      · subst hac
        rw [if_pos rfl] at h2 ⊢
        exact charListLe_trans h1 h2
      · rw [if_neg hac] at h2 ⊢
        exact h2
    · rw [if_neg hab] at h1
      have hab2 : a < b := of_decide_eq_true h1
      by_cases hbc : b = c
      · subst hbc
        rw [if_neg hab]
        exact h1
      · rw [if_neg hbc] at h2
        have hbc2 : b < c := of_decide_eq_true h2
        have hac2 : a < c := lt_trans hab2 hbc2
        rw [if_neg (ne_of_lt hac2)]
        exact decide_eq_true hac2

instance : IsTotal String strLeProp :=
  ⟨fun a b => charListLe_total a.data b.data⟩

instance : IsTrans String strLeProp :=
  ⟨fun _ _ _ h1 h2 => charListLe_trans h1 h2⟩

lemma sortedDedup_sorted (l : List String) : List.Sorted strLeProp (sortedDedup l) :=
  List.sorted_insertionSort strLeProp l.dedup

lemma sortedDedup_nodup (l : List String) : (sortedDedup l).Nodup :=
  ((List.perm_insertionSort strLeProp l.dedup).nodup_iff).mpr l.nodup_dedup

lemma mem_sortedDedup {a : String} {l : List String} : a ∈ sortedDedup l ↔ a ∈ l := by
  rw [sortedDedup, (List.perm_insertionSort strLeProp l.dedup).mem_iff, List.mem_dedup]

lemma subset_of_searchWB {pat text : String} (h : searchWB pat text = true) :
    ∀ c ∈ pat.data, c ∈ text.data := by
  unfold searchWB at h
  rw [List.any_eq_true] at h
  obtain ⟨i, _, hm⟩ := h
  unfold matchAt at hm
  rw [Bool.and_eq_true, Bool.and_eq_true] at hm
  have hs := of_decide_eq_true hm.1.1
  intro c hc
  have hsub : List.Sublist pat.data text.data := by
    rw [← hs]
    exact (List.take_sublist _ _).trans (List.drop_sublist _ _)
  exact hsub.subset hc

lemma hasId_update (db : JobsDB) (id st i2 : String) :
    hasId (update_job_status db id st).2 i2 = hasId db i2 := by
  unfold update_job_status hasId
  induction db with
  | nil => rfl
  | cons r rs ih =>
    by_cases h : r.job_id = id <;> simp [h, ih]

lemma roundHalfEven_nonneg {q : ℚ} (h : 0 ≤ q) : 0 ≤ roundHalfEven q := by
  have hf : (0 : ℤ) ≤ ⌊q⌋ := Int.floor_nonneg.mpr h
  unfold roundHalfEven
  split_ifs <;> omega

lemma roundHalfEven_le (q : ℚ) : (roundHalfEven q : ℚ) ≤ q + 1 / 2 := by
  have h1 : (⌊q⌋ : ℚ) ≤ q := Int.floor_le q
  have h2 : q < ⌊q⌋ + 1 := Int.lt_floor_add_one q
  unfold roundHalfEven
  split_ifs <;> push_cast <;> linarith

lemma roundHalfEven_le_int {q : ℚ} {n : ℤ} (h : q ≤ n) : roundHalfEven q ≤ n := by
  have h2 := roundHalfEven_le q
  have h3 : (roundHalfEven q : ℚ) < (n : ℚ) + 1 := by linarith
  have h4 : roundHalfEven q < n + 1 := by exact_mod_cast h3
  omega

lemma pyRound2_nonneg {q : ℚ} (h : 0 ≤ q) : 0 ≤ pyRound2 q := by
  unfold pyRound2
  have h1 := roundHalfEven_nonneg (q := q * 100) (by linarith)
  apply div_nonneg _ (by norm_num)
  exact_mod_cast h1

lemma pyRound2_le_100 {q : ℚ} (h : q ≤ 100) : pyRound2 q ≤ 100 := by
  unfold pyRound2
  have h1 : q * 100 ≤ ((10000 : ℤ) : ℚ) := by push_cast; linarith
  have h2 := roundHalfEven_le_int h1
  rw [div_le_iff₀ (by norm_num)]
  exact_mod_cast h2

lemma jaccard_nonneg (a b : Finset String) : 0 ≤ jaccard a b := by
  unfold jaccard
  positivity

lemma jaccard_le_one (a b : Finset String) : jaccard a b ≤ 1 := by
  unfold jaccard
  rcases Nat.eq_zero_or_pos (a ∪ b).card with h | h
  · simp [h]
  · apply div_le_one_of_le₀
    · exact_mod_cast Finset.card_le_card Finset.inter_subset_union
    · positivity

lemma overlap_eq_jaccard (l1 l2 : List String) :
    calculate_keyword_overlap_score l1 l2 = jaccard l1.toFinset l2.toFinset := by
  unfold calculate_keyword_overlap_score jaccard
  by_cases h : l1 = [] ∨ l2 = []
  · rw [if_pos h]
    rcases h with h | h <;> subst h <;> simp
  · rw [if_neg h]
    push_neg at h
    by_cases hu : (l1.toFinset ∪ l2.toFinset).card = 0
    · exfalso
      obtain ⟨x, hx⟩ := List.exists_mem_of_ne_nil l1 h.1
      have hmem : x ∈ l1.toFinset ∪ l2.toFinset :=
        Finset.mem_union_left _ (List.mem_toFinset.mpr hx)
      have := Finset.card_pos.mpr ⟨x, hmem⟩
      omega
    · rw [if_neg hu]

lemma overlap_nonneg (l1 l2 : List String) : 0 ≤ calculate_keyword_overlap_score l1 l2 := by
  rw [overlap_eq_jaccard]
  exact jaccard_nonneg _ _

lemma overlap_le_one (l1 l2 : List String) : calculate_keyword_overlap_score l1 l2 ≤ 1 := by
  rw [overlap_eq_jaccard]
  exact jaccard_le_one _ _

lemma jaccard_eq_one_iff {a b : Finset String} (ha : a.Nonempty) :
    jaccard a b = 1 ↔ a = b := by
  unfold jaccard
  have hu : 0 < (a ∪ b).card :=
    Finset.card_pos.mpr (ha.mono Finset.subset_union_left)
  constructor
  · intro h
    have hne : ((a ∪ b).card : ℚ) ≠ 0 := by positivity
    rw [div_eq_one_iff_eq hne] at h
    have hcard : (a ∩ b).card = (a ∪ b).card := by exact_mod_cast h
    have heq : a ∩ b = a ∪ b :=
      Finset.eq_of_subset_of_card_le Finset.inter_subset_union (le_of_eq hcard.symm)
    have hsupinf : a ⊔ b = a ⊓ b := by
      rw [Finset.sup_eq_union, Finset.inf_eq_inter]
      exact heq.symm
    exact sup_eq_inf.mp hsupinf
  · intro h
    subst h
    rw [Finset.inter_self, Finset.union_self]
    exact div_self (by positivity)

/-- Unfolding of match_job_to_resume on the non-empty path. -/
lemma match_nonempty (stg : Settings) (m : JobMatcher)
    (resume : ResumeParsedData) (job : JobData)
    (hr : resume.text ≠ "") (hj : job.job_description ≠ "") :
    match_job_to_resume stg m resume job =
      { final_score := pyRound2
          ((calculate_keyword_overlap_score resume.keywords
              (extract_general_keywords m.resumeParser job.job_description)
              * stg.KEYWORD_WEIGHT
            + (get_semantic_score m.semantic_matcher resume.text job.job_description + 1) / 2
              * stg.SEMANTIC_WEIGHT) * 100)
        keyword_score := pyRound2
          (calculate_keyword_overlap_score resume.keywords
            (extract_general_keywords m.resumeParser job.job_description) * 100)
        semantic_score := pyRound2
          ((get_semantic_score m.semantic_matcher resume.text job.job_description + 1) / 2 * 100)
        matched_keywords := some (resume.keywords.toFinset ∩
          (extract_general_keywords m.resumeParser job.job_description).toFinset) } := by
  unfold match_job_to_resume
  rw [if_neg (not_or.mpr ⟨hr, hj⟩)]

/-! ### Concrete instances used by witnesses and counterexamples -/

/-- A concrete tokenizer oracle for witness evaluation. -/
def w2Model : SpacyModel :=
  { tokens := fun _ => ["python", "design", "work"], isStop := fun _ => false }

/-- A concrete tokenizer oracle whose stop list contains the word and. -/
def w6Model : SpacyModel :=
  { tokens := fun _ => ["led", "design", "and", "engineering", "projects"]
    isStop := fun t => decide (t = "and") }

/-- A concrete embedding oracle with constant cosine similarity 1/2. -/
def halfCosModel : SentenceModel :=
  { cos := fun _ _ => 1 / 2 }

/-- A concrete semantic matcher built on the constant oracle. -/
def fixSem : SemanticMatcher :=
  { model := halfCosModel }

/-- A concrete JobMatcher state for witness evaluation. -/
def fixMatcher : JobMatcher :=
  { resumeParser := ResumeParser.init (some w2Model), semantic_matcher := fixSem }

/-- A concrete parsed resume with non-empty text and keywords. -/
def fixResume : ResumeParsedData :=
  { text := "experienced python engineer", skills := [], keywords := ["design", "analysis"] }

/-- A parsed resume whose text is empty. -/
def emptyResume : ResumeParsedData :=
  { text := "", skills := [], keywords := [] }

/-- A concrete job posting with non-empty description. -/
def fixJob : JobData :=
  { job_description := "python design work", job_title := "Engineer" }

/-- A concrete stored row with id j1 and default status. -/
def row1 : JobRow :=
  { job_id := "j1", job_title := some "Title", company_name := none, location := none
    job_description := some "Desc", job_url := none, employer_website := none
    job_employment_type := none, job_posted_at_datetime_utc := none
    status := "new", retrieved_at := "t0" }

/-- A one-row jobs table holding row1. -/
def exDB : JobsDB := [row1]

/-- A concrete insertion input with id j1. -/
def jdIn : JobInput :=
  { job_id := some "j1", job_title := some "Title", company_name := none
    job_location := none, job_description := some "Desc", job_apply_link := none
    employer_website := none, job_employment_type := none
    job_posted_at_datetime_utc := none }

/-- An insertion input whose job_id entry is the empty string. -/
def jdNoId : JobInput :=
  { job_id := some "", job_title := none, company_name := none
    job_location := none, job_description := none, job_apply_link := none
    employer_website := none, job_employment_type := none
    job_posted_at_datetime_utc := none }

/-! ### Claim theorems -/

/-- C1, counterexample: on empty resume text the early return of
match_job_to_resume carries no matched_keywords component at all, so the
result does not contain a matchedKeywords component equal to the empty
set as the claim states. -/
theorem c1_empty_return_counterexample :
    (match_job_to_resume defaultSettings fixMatcher emptyResume fixJob).matched_keywords
      ≠ some (∅ : Finset String) := by
  decide

/-- C1, amended: if the resume text is empty or the job description is
empty, match_job_to_resume returns final_score 0, keyword_score 0,
semantic_score 0 and no matched_keywords entry at all. -/
theorem c1_empty_input_amended (stg : Settings) (m : JobMatcher)
    (resume : ResumeParsedData) (job : JobData)
    (h : resume.text = "" ∨ job.job_description = "") :
    match_job_to_resume stg m resume job
      = { final_score := 0, keyword_score := 0, semantic_score := 0
          matched_keywords := none } := by
  unfold match_job_to_resume
  rw [if_pos h]

/-- C1, witness: the amended statement evaluated on a concrete empty
resume. -/
theorem c1_empty_input_witness :
    match_job_to_resume defaultSettings fixMatcher emptyResume fixJob
      = { final_score := 0, keyword_score := 0, semantic_score := 0
          matched_keywords := none } :=
  c1_empty_input_amended defaultSettings fixMatcher emptyResume fixJob (Or.inl rfl)

/-- C3: on non-empty keyword lists the overlap score is the Jaccard
index of the two sets, lies in [0, 1], and equals 1 exactly when the two
sets are identical and non-empty; on an empty list it is 0. -/
theorem c3_keyword_overlap_jaccard (l1 l2 : List String) (h1 : l1 ≠ []) (_h2 : l2 ≠ []) :
    calculate_keyword_overlap_score l1 l2 = jaccard l1.toFinset l2.toFinset
    ∧ 0 ≤ calculate_keyword_overlap_score l1 l2
    ∧ calculate_keyword_overlap_score l1 l2 ≤ 1
    ∧ (calculate_keyword_overlap_score l1 l2 = 1
        ↔ l1.toFinset = l2.toFinset ∧ l1.toFinset ≠ ∅)
    ∧ (∀ l : List String,
        calculate_keyword_overlap_score [] l = 0 ∧ calculate_keyword_overlap_score l [] = 0) := by
  obtain ⟨x, hx⟩ := List.exists_mem_of_ne_nil l1 h1
  have hne1 : l1.toFinset.Nonempty := ⟨x, List.mem_toFinset.mpr hx⟩
  refine ⟨overlap_eq_jaccard l1 l2, overlap_nonneg l1 l2, overlap_le_one l1 l2, ?_, ?_⟩
  · rw [overlap_eq_jaccard, jaccard_eq_one_iff hne1]
    constructor
    · intro h
      exact ⟨h, Finset.nonempty_iff_ne_empty.mp hne1⟩
    · exact fun h => h.1
  · intro l
    constructor <;> simp [calculate_keyword_overlap_score]

/-- C3, witness: the Jaccard identity evaluated on concrete singleton
lists. -/
theorem c3_keyword_overlap_witness :
    calculate_keyword_overlap_score ["design"] ["design"]
      = jaccard (["design"] : List String).toFinset (["design"] : List String).toFinset :=
  (c3_keyword_overlap_jaccard ["design"] ["design"] (by decide) (by decide)).1

/-- C5, counterexample: update_job_status accepts a status value outside
the closed enumeration — the call succeeds and the stored status changes
to the invalid value. -/
theorem c5_status_counterexample :
    "bogus" ∉ ["new", "seen", "applied", "interviewing", "rejected"]
    ∧ update_job_status exDB "j1" "bogus" = (true, [{ row1 with status := "bogus" }]) := by
  constructor
  · decide
  · decide

/-- C5, amended: update_job_status performs no vocabulary check on the
status value: whenever a row with the given id exists, the call returns
true and rewrites the status of every row with that id to the given
string, whatever it is. -/
theorem c5_status_amended (db : JobsDB) (id s : String) (h : hasId db id = true) :
    (update_job_status db id s).1 = true
    ∧ (update_job_status db id s).2
        = db.map (fun r => if r.job_id = id then { r with status := s } else r) :=
  ⟨h, rfl⟩

/-- C5, witness: the amended statement evaluated on the concrete one-row
table with an out-of-vocabulary status. -/
theorem c5_status_witness :
    (update_job_status exDB "j1" "weird").1 = true :=
  (c5_status_amended exDB "j1" "weird" (by decide)).1

/-- C6, counterexample: when the spaCy model fails to load, construction
of the parser succeeds (the exception is caught and nlp is set to none)
and extract_general_keywords silently returns the empty list, while the
same call with a loaded model returns keywords — the opposite of the
fail-fast-at-construction behaviour the claim states. -/
theorem c6_failfast_counterexample :
    extract_general_keywords (ResumeParser.init none) "Led design and engineering projects" = []
    ∧ extract_general_keywords (ResumeParser.init (some w6Model))
        "Led design and engineering projects" = ["design", "engineering"] := by
  constructor
  · rfl
  · decide

/-- C6, amended: on spaCy model-load failure ResumeParser.__init__
catches the exception and constructs with nlp = None, and every
subsequent extract_general_keywords call returns the empty list. -/
theorem c6_loadfail_amended (text : String) :
    extract_general_keywords (ResumeParser.init none) text = [] :=
  rfl

/-- C6, witness: the amended statement evaluated on a concrete text. -/
theorem c6_loadfail_witness :
    extract_general_keywords (ResumeParser.init none) "Skilled in design and CAD" = [] :=
  c6_loadfail_amended "Skilled in design and CAD"

/-- C8: extract_skills matches lexicon entries case-insensitively at
word boundaries only: on the scenario text it finds cad (standalone) and
autocad (its own lexicon entry), and when the standalone CAD is removed,
cad is no longer found — it never matches inside autocad. -/
theorem c8_word_boundary :
    "cad" ∈ extract_skills (ResumeParser.init none) "I am proficient in AutoCAD and CAD modeling"
    ∧ "autocad" ∈ extract_skills (ResumeParser.init none)
        "I am proficient in AutoCAD and CAD modeling"
    ∧ extract_skills (ResumeParser.init none) "I am proficient in AutoCAD and CAD modeling"
        = ["autocad", "cad"]
    ∧ "cad" ∉ extract_skills (ResumeParser.init none) "I am proficient in AutoCAD and modeling" := by
  refine ⟨by decide, by decide, by decide, by decide⟩

/-- C9: insert_job with a missing or empty job_id entry returns false
and leaves the table unchanged. -/
theorem c9_insert_missing_id (db : JobsDB) (now : String) (jd : JobInput)
    (h : jd.job_id = none ∨ jd.job_id = some "") :
    insert_job db now jd = (false, db) := by
  have ht : truthyId jd.job_id = none := by
    rcases h with h | h <;> rw [h] <;> simp [truthyId]
  unfold insert_job
  rw [ht]

/-- C9, witness: the statement evaluated on a concrete input with an
empty job_id. -/
theorem c9_insert_missing_id_witness :
    insert_job exDB "t1" jdNoId = (false, exDB) :=
  c9_insert_missing_id exDB "t1" jdNoId (Or.inr rfl)

/-- C2: on non-empty texts, final_score is the weighted blend of the
Jaccard keyword score and the normalised semantic score, scaled to a
percentage and rounded to two decimals; keyword_score and semantic_score
are the same quantities as rounded percentages; the Jaccard score lies
in [0, 1]; and the configured default weights are 0.5 each. -/
theorem c2_score_formula (stg : Settings) (m : JobMatcher)
    (resume : ResumeParsedData) (job : JobData)
    (hr : resume.text ≠ "") (hj : job.job_description ≠ "") :
    (match_job_to_resume stg m resume job).final_score
      = pyRound2 ((jaccard resume.keywords.toFinset
            (extract_general_keywords m.resumeParser job.job_description).toFinset
            * stg.KEYWORD_WEIGHT
          + (get_semantic_score m.semantic_matcher resume.text job.job_description + 1) / 2
            * stg.SEMANTIC_WEIGHT) * 100)
    ∧ (match_job_to_resume stg m resume job).keyword_score
      = pyRound2 (jaccard resume.keywords.toFinset
          (extract_general_keywords m.resumeParser job.job_description).toFinset * 100)
    ∧ (match_job_to_resume stg m resume job).semantic_score
      = pyRound2 ((get_semantic_score m.semantic_matcher resume.text job.job_description + 1)
          / 2 * 100)
    ∧ 0 ≤ jaccard resume.keywords.toFinset
          (extract_general_keywords m.resumeParser job.job_description).toFinset
    ∧ jaccard resume.keywords.toFinset
          (extract_general_keywords m.resumeParser job.job_description).toFinset ≤ 1
    ∧ defaultSettings.KEYWORD_WEIGHT = 1 / 2
    ∧ defaultSettings.SEMANTIC_WEIGHT = 1 / 2 := by
  rw [match_nonempty stg m resume job hr hj]
  refine ⟨?_, ?_, rfl, jaccard_nonneg _ _, jaccard_le_one _ _, rfl, rfl⟩
  · simp only [overlap_eq_jaccard]
  · simp only [overlap_eq_jaccard]

/-- C2, witness: the final-score formula evaluated on a concrete matcher
and inputs. -/
theorem c2_score_formula_witness :
    (match_job_to_resume defaultSettings fixMatcher fixResume fixJob).final_score
      = pyRound2 ((jaccard fixResume.keywords.toFinset
            (extract_general_keywords fixMatcher.resumeParser fixJob.job_description).toFinset
            * defaultSettings.KEYWORD_WEIGHT
          + (get_semantic_score fixMatcher.semantic_matcher fixResume.text fixJob.job_description
              + 1) / 2 * defaultSettings.SEMANTIC_WEIGHT) * 100) :=
  (c2_score_formula defaultSettings fixMatcher fixResume fixJob (by decide) (by decide)).1

/-- C4: inserting a posting with a fresh id returns true; after any
status update on that row, re-inserting the same input returns false and
leaves the table, including the updated status, completely unchanged. -/
theorem c4_upsert_idempotent (db : JobsDB) (now now2 st : String) (jd : JobInput) (id : String)
    (hid : jd.job_id = some id) (hne : id ≠ "") (habs : hasId db id = false) :
    (insert_job db now jd).1 = true
    ∧ insert_job (update_job_status (insert_job db now jd).2 id st).2 now2 jd
        = (false, (update_job_status (insert_job db now jd).2 id st).2) := by
  have htr : truthyId jd.job_id = some id := by
    rw [hid]
    simp [truthyId, hne]
  have h1 : insert_job db now jd
      = (true, db ++ [{ job_id := id, job_title := jd.job_title, company_name := jd.company_name,
                        location := jd.job_location, job_description := jd.job_description,
                        job_url := jd.job_apply_link, employer_website := jd.employer_website,
                        job_employment_type := jd.job_employment_type,
                        job_posted_at_datetime_utc := jd.job_posted_at_datetime_utc,
                        status := "new", retrieved_at := now }]) := by
    unfold insert_job
    rw [htr]
    simp [habs]
  refine ⟨by rw [h1], ?_⟩
  have h2 : hasId (update_job_status (insert_job db now jd).2 id st).2 id = true := by
    rw [hasId_update, h1]
    simp [hasId]
  set db2 := (update_job_status (insert_job db now jd).2 id st).2 with hdb2
  unfold insert_job
  rw [htr]
  simp [h2]

/-- C4, witness: the upsert law evaluated on a concrete empty table and
a status update to applied between the two inserts. -/
theorem c4_upsert_idempotent_witness :
    (insert_job ([] : JobsDB) "t0" jdIn).1 = true
    ∧ insert_job (update_job_status (insert_job ([] : JobsDB) "t0" jdIn).2 "j1" "applied").2
        "t1" jdIn
      = (false, (update_job_status (insert_job ([] : JobsDB) "t0" jdIn).2 "j1" "applied").2) :=
  c4_upsert_idempotent [] "t0" "t1" "applied" jdIn "j1" rfl (by decide) rfl

/-- C7: for non-negative weights summing to one and a cosine oracle
bounded by [-1, 1], the final score of match_job_to_resume always lies
in [0, 100]. -/
theorem c7_final_score_bounds (stg : Settings) (m : JobMatcher)
    (resume : ResumeParsedData) (job : JobData)
    (hk : 0 ≤ stg.KEYWORD_WEIGHT) (hs : 0 ≤ stg.SEMANTIC_WEIGHT)
    (hsum : stg.KEYWORD_WEIGHT + stg.SEMANTIC_WEIGHT = 1)
    (hcos : ∀ t1 t2 : String, -1 ≤ m.semantic_matcher.model.cos t1 t2
              ∧ m.semantic_matcher.model.cos t1 t2 ≤ 1) :
    0 ≤ (match_job_to_resume stg m resume job).final_score
    ∧ (match_job_to_resume stg m resume job).final_score ≤ 100 := by
  by_cases hc : resume.text = "" ∨ job.job_description = ""
  · unfold match_job_to_resume
    rw [if_pos hc]
    norm_num
  · push_neg at hc
    rw [match_nonempty stg m resume job hc.1 hc.2]
    set J := calculate_keyword_overlap_score resume.keywords
      (extract_general_keywords m.resumeParser job.job_description) with hJ
    set raw := get_semantic_score m.semantic_matcher resume.text job.job_description with hraw
    have hJ0 : 0 ≤ J := overlap_nonneg _ _
    have hJ1 : J ≤ 1 := overlap_le_one _ _
    have hraw01 : -1 ≤ raw ∧ raw ≤ 1 := by
      rw [hraw]
      unfold get_semantic_score
      split_ifs
      · norm_num
      · exact hcos _ _
    have hN0 : 0 ≤ (raw + 1) / 2 := by linarith [hraw01.1]
    have hN1 : (raw + 1) / 2 ≤ 1 := by linarith [hraw01.2]
    have hf0 : 0 ≤ J * stg.KEYWORD_WEIGHT + (raw + 1) / 2 * stg.SEMANTIC_WEIGHT :=
      add_nonneg (mul_nonneg hJ0 hk) (mul_nonneg hN0 hs)
    have hf1 : J * stg.KEYWORD_WEIGHT + (raw + 1) / 2 * stg.SEMANTIC_WEIGHT ≤ 1 := by
      have t1 : J * stg.KEYWORD_WEIGHT ≤ stg.KEYWORD_WEIGHT :=
        mul_le_of_le_one_left hk hJ1
      have t2 : (raw + 1) / 2 * stg.SEMANTIC_WEIGHT ≤ stg.SEMANTIC_WEIGHT :=
        mul_le_of_le_one_left hs hN1
      linarith
    constructor
    · exact pyRound2_nonneg (by nlinarith)
    · exact pyRound2_le_100 (by nlinarith)

/-- C7, witness: the bounds evaluated at the default weights and the
constant-similarity oracle. -/
theorem c7_final_score_bounds_witness :
    0 ≤ (match_job_to_resume defaultSettings fixMatcher fixResume fixJob).final_score
    ∧ (match_job_to_resume defaultSettings fixMatcher fixResume fixJob).final_score ≤ 100 :=
  c7_final_score_bounds defaultSettings fixMatcher fixResume fixJob
    (by norm_num [defaultSettings]) (by norm_num [defaultSettings])
    (by norm_num [defaultSettings])
    (fun _ _ => by norm_num [fixMatcher, fixSem, halfCosModel])

/-- C10: for every tokenizer oracle and every input text, the result of
extract_general_keywords is a sorted, duplicate-free subset of the
lowercased keyword lexicon whose entries are all single alphabetic
tokens; in particular the multi-word and hyphenated lexicon entries are
never returned. -/
theorem c10_keywords_invariant (lr : Option SpacyModel) (text : String) :
    List.Sorted strLeProp (extract_general_keywords (ResumeParser.init lr) text)
    ∧ (extract_general_keywords (ResumeParser.init lr) text).Nodup
    ∧ extract_general_keywords (ResumeParser.init lr) text ⊆ COMMON_KEYWORDS.map strLower
    ∧ (extract_general_keywords (ResumeParser.init lr) text).all isAlphaStr = true
    ∧ "supply chain" ∉ extract_general_keywords (ResumeParser.init lr) text
    ∧ "technical reports" ∉ extract_general_keywords (ResumeParser.init lr) text
    ∧ "problem-solving" ∉ extract_general_keywords (ResumeParser.init lr) text := by
  cases lr with
  | none =>
    have he : extract_general_keywords (ResumeParser.init none) text = [] := rfl
    rw [he]
    exact ⟨List.sorted_nil, List.nodup_nil, by simp, rfl, by simp, by simp, by simp⟩
  | some m =>
    have he : extract_general_keywords (ResumeParser.init (some m)) text
        = sortedDedup ((COMMON_KEYWORDS.map strLower).filter
            (fun kw =>
              decide (kw ∈ (m.tokens (strLower text)).filter (tokenFilter m))
              || ((m.tokens (strLower text)).filter (tokenFilter m)).any
                  (fun t => searchWB kw t))) := rfl
    rw [he]
    have halpha : ∀ kw, kw ∈ sortedDedup ((COMMON_KEYWORDS.map strLower).filter
        (fun kw =>
          decide (kw ∈ (m.tokens (strLower text)).filter (tokenFilter m))
          || ((m.tokens (strLower text)).filter (tokenFilter m)).any
              (fun t => searchWB kw t))) → isAlphaStr kw = true := by
      intro kw hkw
      rw [mem_sortedDedup, List.mem_filter] at hkw
      obtain ⟨hlex, hcond⟩ := hkw
      have hnonempty : kw.data ≠ [] := by
        have hall : ∀ s ∈ COMMON_KEYWORDS.map strLower, s.data ≠ [] := by decide
        exact hall kw hlex
      rw [Bool.or_eq_true] at hcond
      have hchars : ∀ c ∈ kw.data, c.isAlpha = true := by
        rcases hcond with hmem | hany
        · have hkwtok := of_decide_eq_true hmem
          have htf := (List.mem_filter.mp hkwtok).2
          unfold tokenFilter at htf
          rw [Bool.and_eq_true, Bool.and_eq_true] at htf
          have halphakw := htf.1.1
          unfold isAlphaStr at halphakw
          rw [Bool.and_eq_true] at halphakw
          intro c hc
          exact List.all_eq_true.mp halphakw.2 c hc
        · rw [List.any_eq_true] at hany
          obtain ⟨t, htmem, hsrch⟩ := hany
          have htf := (List.mem_filter.mp htmem).2
          unfold tokenFilter at htf
          rw [Bool.and_eq_true, Bool.and_eq_true] at htf
          have halphat := htf.1.1
          unfold isAlphaStr at halphat
          rw [Bool.and_eq_true] at halphat
          intro c hc
          have hct : c ∈ t.data := subset_of_searchWB hsrch c hc
          exact List.all_eq_true.mp halphat.2 c hct
      unfold isAlphaStr
      rw [Bool.and_eq_true]
      constructor
      · have hemp : kw.data.isEmpty = false := by
          cases h : kw.data with
          | nil => exact absurd h hnonempty
          | cons c cs => rfl
        rw [hemp]
        rfl
      · rw [List.all_eq_true]
        exact hchars
    refine ⟨sortedDedup_sorted _, sortedDedup_nodup _, ?_, ?_, ?_, ?_, ?_⟩
    · intro kw hkw
      exact List.mem_of_mem_filter (mem_sortedDedup.mp hkw)
    · rw [List.all_eq_true]
      exact fun kw hkw => halpha kw hkw
    · intro hmem
      exact absurd (halpha _ hmem) (by decide)
    · intro hmem
      exact absurd (halpha _ hmem) (by decide)
    · intro hmem
      exact absurd (halpha _ hmem) (by decide)

/-- C10, witness: a multi-word lexicon entry is absent from a concrete
extraction result. -/
theorem c10_keywords_invariant_witness :
    "supply chain" ∉ extract_general_keywords (ResumeParser.init (some w2Model))
      "python design work" :=
  (c10_keywords_invariant (some w2Model) "python design work").2.2.2.2.1

end SJF
